import Mathlib

/-!
Verification of the PAT chatbot server ("PAT Server/pat.py" and
"PAT Server/encryption.py") against its natural-language specification.

The development shallowly embeds the Python source: pure helpers become Lean
functions on `List Char` / `String` / `Nat`; the sqlite-backed thread table,
the local file system and the remote OpenAI resources become explicit state
threaded through the functions; Python exceptions (IndexError, ValueError)
become `Option` / `Except` results.
-/

namespace PAT

/-! ## Python string primitives used by `pat.py` -/

/-- Python whitespace (ASCII range) as tested by `str.strip()` and the regex
class `\s`: space, tab, newline, carriage return, vertical tab, form feed. -/
def isPySpace (c : Char) : Bool :=
  c == ' ' || c == '\t' || c == '\n' || c == '\r' || c == '\x0b' || c == '\x0c'

/-- `str.strip()` on a character list: drop leading and trailing whitespace. -/
def pyStripChars (cs : List Char) : List Char :=
  ((cs.dropWhile isPySpace).reverse.dropWhile isPySpace).reverse

/-- `str.strip()` on a `String`. -/
def pyStrip (s : String) : String :=
  String.mk (pyStripChars s.data)

/-- Numeric value of a decimal digit string (most significant digit first). -/
def digitsVal (cs : List Char) : Nat :=
  cs.foldl (fun a c => a * 10 + (c.toNat - 48)) 0

/-- Decimal parse of a digit run: `some` of its value when the run is a
non-empty string of digits, `none` otherwise. -/
def parseDigits (cs : List Char) : Option Nat :=
  if cs.isEmpty then none
  else if cs.all Char.isDigit then some (digitsVal cs) else none

/-- Python `int(s)` on a decimal string: optional surrounding whitespace, an
optional sign, then one or more digits; `none` models a raised `ValueError`.
(Digit-group underscores, which Python also accepts, are not modelled; no
value in this development contains them.) -/
def pyInt (cs : List Char) : Option Int :=
  match pyStripChars cs with
  | [] => none
  | c :: ds =>
    if c = '-' then (parseDigits ds).map (fun n => -(n : Int))
    else if c = '+' then (parseDigits ds).map (fun n => (n : Int))
    else (parseDigits (c :: ds)).map (fun n => (n : Int))

/-! ## The response extractor (`get_context_similarity_percentage`)

The source uses the regex `3\. Context Similarity Percentage:[\s#*]*\n*([^%]+)%?`
with `re.search` (leftmost match) and `re.sub` (remove every match).  The
pattern is embedded directly: a match starts at an occurrence of the literal
marker, then the greedy run of `[\s#*]` characters (`\n*` can never add to it),
then the greedy non-empty run of non-`%` characters (backtracking takes the
last `[\s#*]` character when nothing else is available), then an optional `%`.
-/

/-- The literal part of the extraction pattern. -/
def marker : List Char := "3. Context Similarity Percentage:".data

/-- The regex character class `[\s#*]` of the extraction pattern. -/
def isClassWS (c : Char) : Bool :=
  isPySpace c || c == '#' || c == '*'

/-- Matching of the extraction pattern's tail against the input left after the
greedy `[\s#*]*` run: `w` is the last character of that run (if any), available
to backtracking when `[^%]+` would otherwise be empty.  Returns the captured
group and the characters following the whole match. -/
def matchTail (w : Option Char) : List Char → Option (List Char × List Char)
  | [] => w.map (fun c => ([c], []))
  | d :: rs =>
    if d = '%' then w.map (fun c => ([c], rs))
    else
      let g := (d :: rs).takeWhile (fun x => !(x == '%'))
      let r2 := (d :: rs).dropWhile (fun x => !(x == '%'))
      if r2.head? = some '%' then some (g, r2.tail) else some (g, r2)

/-- Matching of the extraction pattern's tail (everything after the literal
marker) against `cs`, with Python backtracking semantics: returns the captured
group and the characters following the whole match, or `none` when the
pattern cannot match here. -/
def matchAfter (cs : List Char) : Option (List Char × List Char) :=
  matchTail (cs.takeWhile isClassWS).getLast? (cs.dropWhile isClassWS)

/-- `re.search` for the extraction pattern: the captured group of the leftmost
match, or `none` when the pattern matches nowhere. -/
def searchGroup : List Char → Option (List Char)
  | [] => none
  | c :: cs =>
    if marker.isPrefixOf (c :: cs) then
      match matchAfter ((c :: cs).drop marker.length) with
      | some (g, _) => some g
      | none => searchGroup cs
    else searchGroup cs

/-- `re.sub` of the extraction pattern by the empty string: scan left to
right, removing every (non-overlapping) match and keeping all other
characters. -/
def subAll (cs : List Char) : List Char :=
  match cs with
  | [] => []
  | c :: cs' =>
    if hpre : marker.isPrefixOf (c :: cs') = true then
      match h : matchAfter ((c :: cs').drop marker.length) with
      | some (g, rest) => subAll rest
      | none => c :: subAll cs'
    else c :: subAll cs'
termination_by cs.length
decreasing_by
  · have key : ∀ (c₀ : Char) (cs₀ g₀ rest₀ : List Char),
        marker.isPrefixOf (c₀ :: cs₀) = true →
        matchAfter ((c₀ :: cs₀).drop marker.length) = some (g₀, rest₀) →
        rest₀.length < (c₀ :: cs₀).length := by
      intro c₀ cs₀ g₀ rest₀ hpre₀ h₀
      have mtle : ∀ (w : Option Char) (l u r : List Char),
          matchTail w l = some (u, r) → r.length ≤ l.length := by
        intro w l u r h'
        cases l with
        | nil =>
          cases w with
          | none => simp [matchTail] at h'
          | some a =>
            simp [matchTail] at h'
            obtain ⟨-, rfl⟩ := h'
            simp
        | cons d rs =>
          by_cases hd : d = '%'
          · cases w with
            | none => simp [matchTail, hd] at h'
            | some a =>
              simp [matchTail, hd] at h'
              obtain ⟨-, hr⟩ := h'
              simp [← hr]
          · have hr2 : ((d :: rs).dropWhile (fun x => !(x == '%'))).length ≤ rs.length + 1 := by
              have := (List.dropWhile_sublist (l := d :: rs) (p := fun x => !(x == '%'))).length_le
              simpa using this
            simp only [matchTail, if_neg hd] at h'
            split at h'
            · cases h'
              have := List.length_tail ((d :: rs).dropWhile (fun x => !(x == '%')))
              simp only [List.length_cons]
              omega
            · cases h'
              simpa using hr2
      have hple : ∀ (l₁ l₂ : List Char), l₁.isPrefixOf l₂ = true →
          l₁.length ≤ l₂.length := by
        intro l₁
        induction l₁ with
        | nil => intro l₂ _; simp
        | cons a as ih =>
          intro l₂ hh
          cases l₂ with
          | nil => simp [List.isPrefixOf] at hh
          | cons b bs =>
            simp only [List.isPrefixOf, Bool.and_eq_true] at hh
            have := ih bs hh.2
            simp only [List.length_cons]
            omega
      have hlen : marker.length ≤ (c₀ :: cs₀).length := hple _ _ hpre₀
      have hdw := (List.dropWhile_sublist
        (l := (c₀ :: cs₀).drop marker.length) (p := isClassWS)).length_le
      have hr := mtle _ _ _ _ h₀
      have hδ : ((c₀ :: cs₀).drop marker.length).length
          = (c₀ :: cs₀).length - marker.length := by simp
      rw [hδ] at hdw
      have hm : 0 < marker.length := by decide
      simp only [List.length_cons] at hlen hdw ⊢
      omega
    exact key _ _ _ _ hpre h
  · simp
  · simp

/-- Whether the marker occurs anywhere in `cs` (as a contiguous substring). -/
def hasMarker (cs : List Char) : Bool :=
  (List.range (cs.length + 1)).any (fun i => marker.isPrefixOf (cs.drop i))

/-- `PAT.get_context_similarity_percentage` from `pat.py`: search the reply for
the percentage pattern; on a match, coerce the captured group to an integer
(`none` models the uncaught `ValueError` when that fails) and return the reply
with every match removed and stripped, together with the integer; on no match,
return the stripped reply and no percentage. -/
def get_context_similarity_percentage (message : String) :
    Option (String × Option Int) :=
  match searchGroup message.data with
  | some g =>
    match pyInt (pyStripChars g) with
    | some p => some (String.mk (pyStripChars (subAll message.data)), some p)
    | none => none
  | none => some (pyStrip message, none)

/-! ## The file obscurer (`encryption.py`)

`encrypt_file` reads a file, base64-encodes its bytes, encrypts the result
with a process-wide Fernet cipher and writes it back; `decrypt_file` is the
inverse composition.  Bytes are `Nat`s below 256; base64 is embedded
concretely; the Fernet cipher (an external library, out of scope of the spec)
is an abstract encrypt/decrypt pair. -/

/-- Byte value of the base64 alphabet character for a sextet (`A-Z a-z 0-9 + /`). -/
def b64char (s : Nat) : Nat :=
  if s < 26 then 65 + s
  else if s < 52 then 71 + s
  else if s < 62 then s - 4
  else if s = 62 then 43
  else 47

/-- Sextet value of a base64 alphabet byte. -/
def b64index (c : Nat) : Nat :=
  if 65 ≤ c ∧ c ≤ 90 then c - 65
  else if 97 ≤ c ∧ c ≤ 122 then c - 71
  else if 48 ≤ c ∧ c ≤ 57 then c + 4
  else if c = 43 then 62
  else if c = 47 then 63
  else 0

/-- `base64.b64encode`: three input bytes become four alphabet bytes; a final
group of one or two bytes is zero-padded and marked with `=` (byte 61). -/
def b64encode : List Nat → List Nat
  | [] => []
  | [a] => [b64char (a / 4), b64char (a % 4 * 16), 61, 61]
  | [a, b] => [b64char (a / 4), b64char (a % 4 * 16 + b / 16), b64char (b % 16 * 4), 61]
  | a :: b :: c :: rest =>
    b64char (a / 4) :: b64char (a % 4 * 16 + b / 16) :: b64char (b % 16 * 4 + c / 64)
      :: b64char (c % 64) :: b64encode rest

/-- `base64.b64decode`, modelled on inputs of the shape `b64encode` produces
(length a multiple of four, `=` padding only in the final group, which is how
Python's decoder behaves on such inputs). -/
def b64decode : List Nat → List Nat
  | c1 :: c2 :: c3 :: c4 :: rest =>
    let s1 := b64index c1
    let s2 := b64index c2
    match rest with
    | [] =>
      if c3 = 61 then [s1 * 4 + s2 / 16]
      else if c4 = 61 then
        let s3 := b64index c3
        [s1 * 4 + s2 / 16, s2 % 16 * 16 + s3 / 4]
      else
        let s3 := b64index c3
        let s4 := b64index c4
        [s1 * 4 + s2 / 16, s2 % 16 * 16 + s3 / 4, s3 % 4 * 64 + s4]
    | _ =>
      let s3 := b64index c3
      let s4 := b64index c4
      (s1 * 4 + s2 / 16) :: (s2 % 16 * 16 + s3 / 4) :: (s3 % 4 * 64 + s4) :: b64decode rest
  | _ => []

/-- The process-wide Fernet cipher (`cipher = Fernet(cipher_key)`), abstract:
the cryptography library is an external collaborator, characterised only by
its contract that decryption inverts encryption. -/
structure Cipher where
  enc : List Nat → List Nat
  dec : List Nat → List Nat

/-- The local filesystem: a map from paths to byte contents. -/
def Disk := String → List Nat

/-- Overwriting one file on disk. -/
def writeFile (d : Disk) (p : String) (bs : List Nat) : Disk :=
  fun q => if q = p then bs else d q

/-- `encryption.encrypt_file`: read the file, base64-encode, Fernet-encrypt,
write the result back in place. -/
def encrypt_file (cipher : Cipher) (d : Disk) (p : String) : Disk :=
  writeFile d p (cipher.enc (b64encode (d p)))

/-- `encryption.decrypt_file`: read the file, Fernet-decrypt, base64-decode,
write the result back in place. -/
def decrypt_file (cipher : Cipher) (d : Disk) (p : String) : Disk :=
  writeFile d p (b64decode (cipher.dec (d p)))

/-- A concrete cipher satisfying the Fernet contract, for witnesses. -/
def testCipher : Cipher := ⟨fun bs => bs.reverse, fun bs => bs.reverse⟩

/-- A concrete disk for witnesses: one file `"pat.pdf"` with three bytes. -/
def testDisk : Disk := fun p => if p = "pat.pdf" then [7, 200, 9] else []

/-! ## File upload with de-duplication (`PAT.upload_files`) -/

/-- One entry of the remote file catalog returned by `client.files.list()`. -/
structure RemoteFile where
  filename : String
  id : String
deriving DecidableEq

/-- `os.path.basename` (POSIX): the component after the last `/`. -/
def basename (p : String) : String :=
  String.mk ((p.data.reverse.takeWhile (fun c => !(c == '/'))).reverse)

/-- Fresh remote file id handed out by `client.files.create` (the remote
service is a counter-backed oracle producing distinct ids). -/
def mkFileId (n : Nat) : String := "file_" ++ toString n

/-- Observable actions `upload_files` performs on one tracked path. -/
inductive FileOp where
  | recordExisting (path : String) (id : String)
  | decrypted (path : String)
  | uploaded (path : String) (id : String)
  | encrypted (path : String)
deriving DecidableEq

/-- Result of the upload loop: ids appended to `self.patent_files` in order,
the final disk, the remote id counter, and the log of performed actions. -/
structure UploadResult where
  ids : List String
  disk : Disk
  next : Nat
  ops : List FileOp

/-- `PAT.upload_files` from `pat.py`: for each tracked path, look its basename
up in the `existing` catalog (the `files.list()` snapshot taken once before
the loop and never refreshed); on a hit append the existing id and do nothing
else; on a miss decrypt the file in place, upload it (fresh id), append that
id, and re-encrypt the file in place. -/
def upload_files (cipher : Cipher) (existing : List RemoteFile) :
    List String → Disk → Nat → UploadResult
  | [], disk, n => ⟨[], disk, n, []⟩
  | p :: rest, disk, n =>
    match existing.find? (fun f => f.filename == basename p) with
    | some f =>
      let r := upload_files cipher existing rest disk n
      ⟨f.id :: r.ids, r.disk, r.next, .recordExisting p f.id :: r.ops⟩
    | none =>
      let disk1 := decrypt_file cipher disk p
      let fid := mkFileId n
      let disk2 := encrypt_file cipher disk1 p
      let r := upload_files cipher existing rest disk2 (n + 1)
      ⟨fid :: r.ids, r.disk, r.next,
        .decrypted p :: .uploaded p fid :: .encrypted p :: r.ops⟩

/-! ## The thread mapping (`PAT.check_if_thread_exist`)

The sqlite table `threads (chat_id TEXT, thread_id TEXT PRIMARY KEY)` is a
row list in insertion order (`INSERT` appends, `SELECT ... fetchone` returns
the first row in that order); `client.beta.threads.create()` is a
counter-backed oracle producing distinct thread ids.  A `none` chat id is
Python `None`, stored as SQL `NULL`. -/

/-- The persistent state behind `chat_threads.db` plus the remote thread
creation oracle. -/
structure DB where
  table : List (Option Nat × Nat)
  nextThread : Nat
deriving DecidableEq

/-- SQL `=` on nullable values: comparisons involving `NULL` are never true. -/
def sqlEq (a b : Option Nat) : Bool :=
  match a, b with
  | some x, some y => x == y
  | _, _ => false

/-- `PAT.check_if_thread_exist` from `pat.py`: look `chat_id` up in the
table; on a hit return the stored thread id; on a miss create a remote thread
and insert the mapping keyed by the session field `self.chat_id`
(`selfChatId` here) — not by the lookup parameter. -/
def check_if_thread_exist (db : DB) (selfChatId : Option Nat)
    (chat_id : Option Nat) : Nat × DB :=
  match db.table.find? (fun r => sqlEq r.1 chat_id) with
  | some r => (r.2, db)
  | none =>
    let thread_id := db.nextThread
    (thread_id, ⟨db.table ++ [(selfChatId, thread_id)], db.nextThread + 1⟩)

/-- Well-formedness of reachable table states: thread ids are pairwise
distinct (the `PRIMARY KEY` constraint) and below the creation counter (every
stored id was handed out by the oracle). -/
def DBInv (db : DB) : Prop :=
  (db.table.map Prod.snd).Nodup ∧ ∀ r ∈ db.table, r.2 < db.nextThread

/-! ## Run polling (`PAT.run_assistant`) -/

/-- The polling loop of `run_assistant`: `statuses i` is the status the `i`-th
observation of the run reports (`statuses 0` from `runs.create`, later ones
from `runs.retrieve`); `fuel` bounds how many loop iterations are observed.
`some i` means the loop exited at observation `i`; `none` means it was still
looping when the budget ran out. -/
def run_assistant_poll (statuses : Nat → String) : Nat → Nat → Option Nat
  | _, 0 => none
  | i, fuel + 1 =>
    if statuses i = "completed" then some i
    else run_assistant_poll statuses (i + 1) fuel

/-! ## Chat id assignment (`PAT.set_chat_id`) -/

/-- Contract of Python `random.randint a b`: an integer `n` with
`a ≤ n ≤ b`, both endpoints included. -/
def randint_spec (a b n : Nat) : Prop := a ≤ n ∧ n ≤ b

/-- `PAT.set_chat_id` from `pat.py`: assign the drawn random value when no
chat id is set, otherwise keep the existing one.  `rnd` is the value
`random.randint(1000, 9999)` returned. -/
def set_chat_id (chat_id : Option Nat) (rnd : Nat) : Option Nat :=
  match chat_id with
  | none => some rnd
  | some c => some c

/-! ## Response generation (`PAT.generate_response`) -/

/-- The sentinel message that triggers the comparison-report rewrite. -/
def sentinel : String := "Started Conversation from Compare with percentage"

/-- The fixed comparison-report prompt template of `generate_response`, with
`self.patent_files[0]`, `self.patent_files[1]` and `percentage` interpolated
(adjacent f-string literals concatenated exactly as in the source). -/
def comparePrompt (f0 f1 : String) (percentage : Int) : String :=
  f0 ++ " is the patent provided, and " ++ f1 ++ " is the patent " ++
  "it was compared to. " ++
  "The comparison utilized a TF-IDF (Term Frequency-Inverse Document Frequency) approach, followed by the calculation " ++
  "of Cosine similarity between the TF-IDF vectors of the two patents. The resulting cosine similarity indicates a " ++
  toString percentage ++ "% textual similarity between the patents.\n\n" ++
  "Your response should be clear, concise, and follow this format without using asterisks or hashtags for special " ++
  "formatting:\n\n" ++
  "1. Pat\x27s Thoughts on Text Similarity: Provide insights into why the patents exhibit a " ++
  toString percentage ++ "% similarity in " ++
  "text. " ++
  "Focus on structural similarities, common technical terms, or linguistic patterns.\n\n" ++
  "2. Pat\x27s Thoughts on Context Similarity: Objectively analyze the extent of similarity in context between the patents. " ++
  "The context similarity percentage reflects the degree of overlap in ideas, concepts, or technical approaches.\n\n" ++
  "3. Context Similarity Percentage: (Please provide a context similarity percentage from 0% to 100%)\n\n" ++
  "Note: The context similarity percentage should accurately reflect the observed similarities in context. " ++
  "A percentage closer to 0% indicates minimal context similarities, while a higher percentage implies significant overlap. " ++
  "You\x27re not required to explain the percentage separately; it should reflect your analysis directly."

/-- Python exceptions `generate_response` can raise. -/
inductive PyError where
  | indexError
  | valueError
deriving DecidableEq

/-- State touched by `generate_response`: the thread database and the log of
messages appended to remote threads by `messages.create`, as
(thread id, content) pairs in creation order. -/
structure GenState where
  db : DB
  msgs : List (Nat × String)
deriving DecidableEq

/-- The message rewrite at the top of `generate_response`: when the body is
the sentinel and a percentage is present, build the comparison prompt from
`patent_files[0]` and `patent_files[1]` (an out-of-range index raises
`IndexError`); otherwise keep the body. -/
def rewriteBody (patent_files : List String) (message_body : String)
    (percentage : Option Int) : Except PyError String :=
  match percentage with
  | some p =>
    if message_body = sentinel then
      match patent_files with
      | f0 :: f1 :: _ => .ok (comparePrompt f0 f1 p)
      | _ => .error .indexError
    else .ok message_body
  | none => .ok message_body

/-- The state in which a `generate_response` call finished, whether it
returned or raised. -/
def stateOf (r : Except (PyError × GenState) (GenState × String × Option Int)) :
    GenState :=
  match r with
  | .error (_, g) => g
  | .ok (g, _, _) => g

/-- `PAT.generate_response` from `pat.py`: resolve the thread for
`self.chat_id` (passed as both the session field and the lookup argument, as
at the call site), rewrite the body when the compare sentinel and a
percentage are supplied, append the resulting message to the thread, run the
assistant (`reply` is the message the completed run produces; the polling
itself is `run_assistant_poll`), and post-process the reply through
`get_context_similarity_percentage` exactly when a percentage was supplied.
Errors carry the state at the moment they are raised. -/
def generate_response (g : GenState) (chat_id : Option Nat)
    (patent_files : List String) (message_body : String)
    (percentage : Option Int) (reply : String) :
    Except (PyError × GenState) (GenState × String × Option Int) :=
  let r := check_if_thread_exist g.db chat_id chat_id
  let g1 : GenState := ⟨r.2, g.msgs⟩
  match rewriteBody patent_files message_body percentage with
  | .error e => .error (e, g1)
  | .ok body =>
    let g2 : GenState := ⟨r.2, g.msgs ++ [(r.1, body)]⟩
    match percentage with
    | some _ =>
      match get_context_similarity_percentage reply with
      | some (message, cp) => .ok (g2, message, cp)
      | none => .error (.valueError, g2)
    | none => .ok (g2, reply, none)

/-! ## Character and list helper lemmas for the extraction claims -/

/-- A list is a `isPrefixOf`-prefix of itself followed by anything. -/
theorem isPrefixOf_append_self {α : Type} [BEq α] [LawfulBEq α] :
    ∀ (l r : List α), l.isPrefixOf (l ++ r) = true
  | [], _ => by simp
  | a :: as, r => by
    simp [List.isPrefixOf, isPrefixOf_append_self as r]

/-- The marker list is never empty, so neither is `marker ++ rest`. -/
theorem marker_append_ne_nil (rest : List Char) : marker ++ rest ≠ [] := by
  intro h
  have hlen := congrArg List.length h
  simp only [List.length_append, List.length_nil] at hlen
  have h33 : marker.length = 33 := by decide
  omega

/-- Every character of the regex class `[\s#*]` fails `isDigit`. -/
theorem class_not_digit (c : Char) (hc : isClassWS c = true) :
    c.isDigit = false := by
  have hmem : c ∈ [' ', '\t', '\n', '\r', '\x0b', '\x0c', '#', '*'] := by
    simp only [isClassWS, isPySpace, Bool.or_eq_true, beq_iff_eq] at hc
    simp only [List.mem_cons, List.not_mem_nil, or_false]
    tauto
  fin_cases hmem <;> decide

/-- Digits are outside the regex class `[\s#*]`. -/
theorem digit_not_class (c : Char) (h : c.isDigit = true) :
    isClassWS c = false := by
  cases hcl : isClassWS c with
  | false => rfl
  | true => rw [class_not_digit c hcl] at h; cases h

/-- Digits are not Python whitespace. -/
theorem digit_not_space (c : Char) (h : c.isDigit = true) :
    isPySpace c = false := by
  have hcl := digit_not_class c h
  cases hsp : isPySpace c with
  | false => rfl
  | true =>
    rw [isClassWS, hsp] at hcl
    simp at hcl

/-- Digits are not the percent sign. -/
theorem digit_ne_pct (c : Char) (h : c.isDigit = true) : ¬ c = '%' := by
  intro hc
  subst hc
  exact absurd h (by decide)

/-- `takeWhile` over a run that satisfies `p` followed by a failing head. -/
theorem takeWhile_append_all {p : Char → Bool} :
    ∀ (ws : List Char), (∀ c ∈ ws, p c = true) →
      ∀ (d : Char) (t : List Char), p d = false →
        (ws ++ d :: t).takeWhile p = ws
  | [], _, d, t, hd => by simp [List.takeWhile_cons, hd]
  | a :: as, h, d, t, hd => by
    have ha : p a = true := h a (by simp)
    have ih := takeWhile_append_all as (fun c hc => h c (by simp [hc])) d t hd
    simp [List.takeWhile_cons, ha, ih]

/-- `dropWhile` over a run that satisfies `p` followed by a failing head. -/
theorem dropWhile_append_all {p : Char → Bool} :
    ∀ (ws : List Char), (∀ c ∈ ws, p c = true) →
      ∀ (d : Char) (t : List Char), p d = false →
        (ws ++ d :: t).dropWhile p = d :: t
  | [], _, d, t, hd => by simp [List.dropWhile_cons, hd]
  | a :: as, h, d, t, hd => by
    have ha : p a = true := h a (by simp)
    have ih := dropWhile_append_all as (fun c hc => h c (by simp [hc])) d t hd
    simp [List.dropWhile_cons, ha, ih]

/-- `dropWhile` is the identity when no element satisfies `p`. -/
theorem dropWhile_eq_self_of_forall {p : Char → Bool} (l : List Char)
    (h : ∀ c ∈ l, p c = false) : l.dropWhile p = l := by
  cases l with
  | nil => rfl
  | cons a as => simp [List.dropWhile_cons, h a (by simp)]

/-- Stripping an all-digit list changes nothing. -/
theorem pyStripChars_digits (l : List Char) (h : ∀ c ∈ l, c.isDigit = true) :
    pyStripChars l = l := by
  have hns : ∀ c ∈ l, isPySpace c = false := fun c hc => digit_not_space c (h c hc)
  unfold pyStripChars
  rw [dropWhile_eq_self_of_forall l hns,
    dropWhile_eq_self_of_forall l.reverse
      (fun c hc => hns c (List.mem_reverse.mp hc))]
  exact List.reverse_reverse l

/-- `int()` on a non-empty all-digit string yields its decimal value. -/
theorem pyInt_digits (l : List Char) (hne : l ≠ [])
    (h : ∀ c ∈ l, c.isDigit = true) :
    pyInt l = some ((digitsVal l : Nat) : Int) := by
  unfold pyInt
  rw [pyStripChars_digits l h]
  obtain ⟨d, ds, rfl⟩ := List.exists_cons_of_ne_nil hne
  have hd := h d (by simp)
  have hd1 : ¬ d = '-' := by intro hc; subst hc; exact absurd hd (by decide)
  have hd2 : ¬ d = '+' := by intro hc; subst hc; exact absurd hd (by decide)
  simp only [if_neg hd1, if_neg hd2]
  unfold parseDigits
  rw [if_neg (by simp), if_pos (List.all_eq_true.mpr h)]
  rfl

/-! ## Evaluation lemmas for `searchGroup`, `matchAfter` and `subAll` -/

/-- Unfolding equation of `searchGroup` at a cons cell. -/
theorem searchGroup_cons (c : Char) (cs : List Char) :
    searchGroup (c :: cs) =
      if marker.isPrefixOf (c :: cs) then
        match matchAfter ((c :: cs).drop marker.length) with
        | some (g, _) => some g
        | none => searchGroup cs
      else searchGroup cs := rfl

/-- `searchGroup` skips a position where the marker is not a prefix. -/
theorem searchGroup_skip (c : Char) (cs : List Char)
    (h : marker.isPrefixOf (c :: cs) = false) :
    searchGroup (c :: cs) = searchGroup cs := by
  rw [searchGroup_cons]
  simp [h]

/-- `searchGroup` at a marker occurrence whose tail matches. -/
theorem searchGroup_marker (rest g r : List Char)
    (h : matchAfter rest = some (g, r)) :
    searchGroup (marker ++ rest) = some g := by
  obtain ⟨c, cs, hc⟩ := List.exists_cons_of_ne_nil (marker_append_ne_nil rest)
  rw [hc, searchGroup_cons, ← hc]
  simp [isPrefixOf_append_self, List.drop_left, h]

/-- `searchGroup` walks over a marker-free prefix. -/
theorem searchGroup_after (pre tail : List Char)
    (hpre : ∀ i < pre.length, marker.isPrefixOf ((pre ++ tail).drop i) = false) :
    searchGroup (pre ++ tail) = searchGroup tail := by
  induction pre with
  | nil => simp
  | cons a as ih =>
    have h0 := hpre 0 (by simp)
    simp only [List.drop_zero, List.cons_append] at h0
    rw [List.cons_append, searchGroup_skip _ _ h0]
    exact ih (fun i hi => by
      have := hpre (i + 1) (by simp; omega)
      simpa using this)

/-- `searchGroup` finds nothing in a marker-free list. -/
theorem searchGroup_no_marker (l : List Char)
    (h : ∀ i, marker.isPrefixOf (l.drop i) = false) : searchGroup l = none := by
  induction l with
  | nil => rfl
  | cons a as ih =>
    rw [searchGroup_skip _ _ (by simpa using h 0)]
    exact ih (fun i => by simpa using h (i + 1))

/-- A bounded absence of marker occurrences is in fact unbounded. -/
theorem no_marker_of_bounded (l : List Char)
    (h : ∀ i ≤ l.length, marker.isPrefixOf (l.drop i) = false) :
    ∀ i, marker.isPrefixOf (l.drop i) = false := by
  intro i
  by_cases hi : i ≤ l.length
  · exact h i hi
  · have hnil : l.drop i = [] := List.drop_eq_nil_of_le (by omega)
    rw [hnil]
    decide

/-- `matchAfter` on class run + digits + `%` + tail: captures exactly the
digits and leaves the tail. -/
theorem matchAfter_eval (ws digits post : List Char)
    (hws : ∀ c ∈ ws, isClassWS c = true)
    (hne : digits ≠ []) (hdig : ∀ c ∈ digits, c.isDigit = true) :
    matchAfter (ws ++ (digits ++ '%' :: post)) = some (digits, post) := by
  obtain ⟨d, ds, rfl⟩ := List.exists_cons_of_ne_nil hne
  have hdC : isClassWS d = false := digit_not_class d (hdig d (by simp))
  have hdrop : (ws ++ (d :: ds ++ '%' :: post)).dropWhile isClassWS
      = d :: (ds ++ '%' :: post) := by
    have := dropWhile_append_all ws hws d (ds ++ '%' :: post) hdC
    simpa using this
  have hdp : ¬ d = '%' := digit_ne_pct d (hdig d (by simp))
  have hall : ∀ c ∈ d :: ds, (fun x => !(x == '%')) c = true := by
    intro c hcmem
    simp [digit_ne_pct c (hdig c hcmem)]
  have hpfail : (fun x => !(x == '%')) '%' = false := by simp
  have hg : (d :: (ds ++ '%' :: post)).takeWhile (fun x => !(x == '%'))
      = d :: ds := by
    have := takeWhile_append_all (d :: ds) hall '%' post hpfail
    simpa using this
  have hr : (d :: (ds ++ '%' :: post)).dropWhile (fun x => !(x == '%'))
      = '%' :: post := by
    have := dropWhile_append_all (d :: ds) hall '%' post hpfail
    simpa using this
  unfold matchAfter
  rw [hdrop]
  simp only [matchTail, if_neg hdp, hg, hr]
  simp

/-- Unfolding `subAll` at a skipped position. -/
theorem subAll_skip (c : Char) (cs : List Char)
    (h : marker.isPrefixOf (c :: cs) = false) :
    subAll (c :: cs) = c :: subAll cs := by
  rw [subAll]
  simp [h]

/-- `subAll` removes a whole match at a marker occurrence and continues after
it. -/
theorem subAll_marker (rest g r : List Char)
    (h : matchAfter rest = some (g, r)) :
    subAll (marker ++ rest) = subAll r := by
  obtain ⟨c, cs, hc⟩ := List.exists_cons_of_ne_nil (marker_append_ne_nil rest)
  rw [hc, subAll, ← hc]
  simp only [isPrefixOf_append_self, List.drop_left]
  rw [dif_pos trivial]
  have hd : List.drop marker.length (marker ++ rest) = rest :=
    List.drop_left marker rest
  split
  · next g' r' heq =>
    rw [hd, h] at heq
    cases heq
    rfl
  · next heq =>
    rw [hd, h] at heq
    cases heq

/-- `subAll` keeps a marker-free prefix verbatim. -/
theorem subAll_after (pre tail : List Char)
    (hpre : ∀ i < pre.length, marker.isPrefixOf ((pre ++ tail).drop i) = false) :
    subAll (pre ++ tail) = pre ++ subAll tail := by
  induction pre with
  | nil => simp
  | cons a as ih =>
    have h0 := hpre 0 (by simp)
    simp only [List.drop_zero, List.cons_append] at h0
    rw [List.cons_append, subAll_skip _ _ h0]
    rw [ih (fun i hi => by
      have := hpre (i + 1) (by simp; omega)
      simpa using this)]
    rfl

/-- `subAll` is the identity on a marker-free list. -/
theorem subAll_no_marker (l : List Char)
    (h : ∀ i, marker.isPrefixOf (l.drop i) = false) : subAll l = l := by
  induction l with
  | nil => rw [subAll]
  | cons a as ih =>
    rw [subAll_skip _ _ (by simpa using h 0)]
    rw [ih (fun i => by simpa using h (i + 1))]

/-! ## Claim C1: extraction correctness -/

/-- C1 counterexample: the input `" hi "` contains no marker, yet the function
returns the trimmed text `"hi"`, not the original text `" hi "` unchanged. -/
theorem extraction_no_marker_strips_cex :
    hasMarker " hi ".data = false ∧
    get_context_similarity_percentage " hi " = some ("hi", none) ∧
    ("hi" : String) ≠ " hi " := by decide

/-- C1 amended: (1) for a reply of shape
`pre ++ marker ++ class-run ++ digits ++ "%" ++ post`, with no marker
occurrence starting in `pre` and none in `post`, the extractor returns the
value of the digits together with the *trimmed* message with the matched
segment removed; (2) for a reply containing no marker at all it returns the
*trimmed* original text and a null percentage. -/
theorem extraction_amended :
    (∀ (pre ws digits post : List Char),
      (∀ i < pre.length,
        marker.isPrefixOf
          ((pre ++ (marker ++ (ws ++ (digits ++ '%' :: post)))).drop i) = false) →
      (∀ c ∈ ws, isClassWS c = true) →
      digits ≠ [] →
      (∀ c ∈ digits, c.isDigit = true) →
      (∀ i ≤ post.length, marker.isPrefixOf (post.drop i) = false) →
      get_context_similarity_percentage
          (String.mk (pre ++ (marker ++ (ws ++ (digits ++ '%' :: post)))))
        = some (pyStrip (String.mk (pre ++ post)),
            some ((digitsVal digits : Nat) : Int))) ∧
    (∀ msg : String,
      (∀ i ≤ msg.data.length, marker.isPrefixOf (msg.data.drop i) = false) →
      get_context_similarity_percentage msg = some (pyStrip msg, none)) := by
  constructor
  · intro pre ws digits post hpre hws hdneq hdig hpost
    have hma : matchAfter (ws ++ (digits ++ '%' :: post)) = some (digits, post) :=
      matchAfter_eval ws digits post hws hdneq hdig
    have hsearch :
        searchGroup (pre ++ (marker ++ (ws ++ (digits ++ '%' :: post))))
          = some digits := by
      rw [searchGroup_after pre _ hpre]
      exact searchGroup_marker _ _ _ hma
    have hpost' : ∀ i, marker.isPrefixOf (post.drop i) = false :=
      no_marker_of_bounded post hpost
    have hsub :
        subAll (pre ++ (marker ++ (ws ++ (digits ++ '%' :: post))))
          = pre ++ post := by
      rw [subAll_after pre _ hpre, subAll_marker _ _ _ hma,
        subAll_no_marker post hpost']
    have hdata : (String.mk (pre ++ (marker ++ (ws ++ (digits ++ '%' :: post))))).data
        = pre ++ (marker ++ (ws ++ (digits ++ '%' :: post))) := rfl
    simp only [get_context_similarity_percentage, hdata, hsearch,
      pyStripChars_digits digits hdig, pyInt_digits digits hdneq hdig, hsub,
      pyStrip]
  · intro msg hb
    have h' := no_marker_of_bounded msg.data hb
    simp only [get_context_similarity_percentage,
      searchGroup_no_marker msg.data h']

/-- Witness for C1 amended: a structured reply with prefix `"A. text\n"`,
digits `42`, tail `" tail"`, and the marker-free input `" hi "`. -/
theorem extraction_amended_witness :
    get_context_similarity_percentage
        (String.mk ("A. text\n".data ++ (marker ++
          (" ".data ++ (['4', '2'] ++ '%' :: " tail".data)))))
      = some (pyStrip (String.mk ("A. text\n".data ++ " tail".data)),
          some ((digitsVal ['4', '2'] : Nat) : Int)) ∧
    get_context_similarity_percentage " hi " = some (pyStrip " hi ", none) :=
  ⟨extraction_amended.1 "A. text\n".data " ".data ['4', '2'] " tail".data
      (by decide) (by decide) (by decide) (by decide) (by decide),
    extraction_amended.2 " hi " (by decide)⟩

/-! ## Claim C5: marker present with a non-numeric value raises -/

/-- C5: for the reply `"3. Context Similarity Percentage: N/A"` the marker is
found but the coercion of the captured group to an integer fails, and the
`ValueError` propagates (result `none`) instead of a silently returned
number. -/
theorem extraction_parse_failure :
    get_context_similarity_percentage "3. Context Similarity Percentage: N/A"
      = none := by decide

/-! ## Claim C7: the polling loop of `run_assistant` -/

/-- C7: the polling loop exits only at an observation whose status is
`"completed"`, and for a status sequence that never reports `"completed"`
(e.g. constantly `"failed"`, `"cancelled"` or `"expired"`) it never exits,
whatever the observation budget. -/
theorem polling_only_exits_on_completed (statuses : Nat → String) :
    (∀ fuel i j, run_assistant_poll statuses i fuel = some j →
        statuses j = "completed") ∧
    ((∀ n, statuses n ≠ "completed") →
        ∀ fuel i, run_assistant_poll statuses i fuel = none) := by
  constructor
  · intro fuel
    induction fuel with
    | zero => intro i j h; simp [run_assistant_poll] at h
    | succ k ih =>
      intro i j h
      by_cases hs : statuses i = "completed"
      · simp [run_assistant_poll, hs] at h
        rw [← h]; exact hs
      · simp [run_assistant_poll, hs] at h
        exact ih _ _ h
  · intro hnever fuel
    induction fuel with
    | zero => intro i; simp [run_assistant_poll]
    | succ k ih =>
      intro i
      simp [run_assistant_poll, hnever i]
      exact ih _

/-- Witness for C7 at a run that is permanently `"failed"`. -/
theorem polling_only_exits_on_completed_witness :
    run_assistant_poll (fun _ => "failed") 0 5 = none :=
  (polling_only_exits_on_completed (fun _ => "failed")).2 (fun _ => by decide) 5 0

/-! ## Claim C8: `set_chat_id` -/

/-- C8 counterexample: `random.randint(1000, 9999)` may return `9999` (both
endpoints are inclusive), and `set_chat_id` then assigns `9999`, which lies
outside the claimed half-open range `[1000, 9999)`. -/
theorem set_chat_id_range_cex :
    randint_spec 1000 9999 9999 ∧ set_chat_id none 9999 = some 9999 ∧
      ¬(9999 < 9999) :=
  ⟨⟨by decide, by decide⟩, rfl, by decide⟩

/-- C8 amended: when no chat id is set, `set_chat_id` assigns the drawn value,
which lies in the inclusive range `[1000, 9999]`; when one is set it is a
no-op; and a second call never changes an already-assigned id. -/
theorem set_chat_id_amended :
    (∀ rnd, randint_spec 1000 9999 rnd →
      ∃ c, set_chat_id none rnd = some c ∧ 1000 ≤ c ∧ c ≤ 9999) ∧
    (∀ c rnd, set_chat_id (some c) rnd = some c) ∧
    (∀ chat rnd1 rnd2,
      set_chat_id (set_chat_id chat rnd1) rnd2 = set_chat_id chat rnd1) := by
  refine ⟨?_, ?_, ?_⟩
  · intro rnd h
    exact ⟨rnd, rfl, h.1, h.2⟩
  · intro c rnd; rfl
  · intro chat rnd1 rnd2
    cases chat <;> rfl

/-- Witness for C8 amended at the draw `1234` and an already-set id `7`. -/
theorem set_chat_id_amended_witness :
    (∃ c, set_chat_id none 1234 = some c ∧ 1000 ≤ c ∧ c ≤ 9999) ∧
      set_chat_id (some 7) 5 = some 7 :=
  ⟨set_chat_id_amended.1 1234 ⟨by decide, by decide⟩,
    set_chat_id_amended.2.1 7 5⟩

/-! ## Claim C3: the inserted row is keyed by the session's chat id -/

/-- C3: on a lookup miss, the row `check_if_thread_exist` inserts stores the
session instance's `chat_id` field (`s`), not the `chat_id` parameter of the
call (`c`). -/
theorem insert_uses_session_chat_id (db : DB) (s c : Option Nat)
    (h : db.table.find? (fun r => sqlEq r.1 c) = none) :
    (check_if_thread_exist db s c).2.table = db.table ++ [(s, db.nextThread)] := by
  simp [check_if_thread_exist, h]

/-- Witness for C3: an empty table, session chat id `7`, lookup parameter `1`:
the inserted row is keyed by `7`. -/
theorem insert_uses_session_chat_id_witness :
    (DB.mk [] 0).table.find? (fun r => sqlEq r.1 (some 1)) = none ∧
      (check_if_thread_exist ⟨[], 0⟩ (some 7) (some 1)).2.table = [(some 7, 0)] :=
  ⟨rfl, insert_uses_session_chat_id ⟨[], 0⟩ (some 7) (some 1) rfl⟩

/-! ## Claim C6: obscure/reveal round trip -/

/-- Decoding inverts the base64 alphabet on sextets. -/
theorem b64index_b64char : ∀ s < 64, b64index (b64char s) = s := by decide

/-- No sextet encodes to the padding byte `=` (61). -/
theorem b64char_ne_61 : ∀ s < 64, b64char s ≠ 61 := by decide

/-- `b64encode` never maps a non-empty input to the empty output. -/
theorem b64encode_nonempty :
    ∀ bs : List Nat, bs ≠ [] → ∃ x xs, b64encode bs = x :: xs
  | [], h => absurd rfl h
  | [_], _ => ⟨_, _, rfl⟩
  | [_, _], _ => ⟨_, _, rfl⟩
  | _ :: _ :: _ :: _, _ => ⟨_, _, rfl⟩

/-- Base64 round trip on byte lists. -/
theorem b64_roundtrip :
    ∀ bs : List Nat, (∀ b ∈ bs, b < 256) → b64decode (b64encode bs) = bs
  | [], _ => rfl
  | [a], h => by
    have ha : a < 256 := h a (by simp)
    have h1 : a / 4 < 64 := by omega
    have h2 : a % 4 * 16 < 64 := by omega
    simp only [b64encode, b64decode, if_true]
    rw [b64index_b64char _ h1, b64index_b64char _ h2]
    have : a / 4 * 4 + a % 4 * 16 / 16 = a := by omega
    rw [this]
  | [a, b], h => by
    have ha : a < 256 := h a (by simp)
    have hb : b < 256 := h b (by simp)
    have h1 : a / 4 < 64 := by omega
    have h2 : a % 4 * 16 + b / 16 < 64 := by omega
    have h3 : b % 16 * 4 < 64 := by omega
    simp only [b64encode, b64decode, if_true]
    rw [if_neg (b64char_ne_61 _ h3)]
    rw [b64index_b64char _ h1, b64index_b64char _ h2, b64index_b64char _ h3]
    have e1 : a / 4 * 4 + (a % 4 * 16 + b / 16) / 16 = a := by omega
    have e2 : (a % 4 * 16 + b / 16) % 16 * 16 + b % 16 * 4 / 4 = b := by omega
    rw [e1, e2]
  | a :: b :: c :: rest, h => by
    have ha : a < 256 := h a (by simp)
    have hb : b < 256 := h b (by simp)
    have hc : c < 256 := h c (by simp)
    have ih := b64_roundtrip rest (fun x hx => h x (by simp [hx]))
    have h1 : a / 4 < 64 := by omega
    have h2 : a % 4 * 16 + b / 16 < 64 := by omega
    have h3 : b % 16 * 4 + c / 64 < 64 := by omega
    have h4 : c % 64 < 64 := by omega
    have e1 : a / 4 * 4 + (a % 4 * 16 + b / 16) / 16 = a := by omega
    have e2 : (a % 4 * 16 + b / 16) % 16 * 16 + (b % 16 * 4 + c / 64) / 4 = b := by omega
    have e3 : (b % 16 * 4 + c / 64) % 4 * 64 + c % 64 = c := by omega
    cases rest with
    | nil =>
      simp only [b64encode, b64decode, if_true]
      rw [if_neg (b64char_ne_61 _ h3), if_neg (b64char_ne_61 _ h4)]
      rw [b64index_b64char _ h1, b64index_b64char _ h2,
        b64index_b64char _ h3, b64index_b64char _ h4]
      rw [e1, e2, e3]
    | cons r rs =>
      obtain ⟨x, xs, hx⟩ := b64encode_nonempty (r :: rs) (by simp)
      simp only [b64encode, hx, b64decode]
      rw [← hx, ih]
      rw [b64index_b64char _ h1, b64index_b64char _ h2,
        b64index_b64char _ h3, b64index_b64char _ h4]
      rw [e1, e2, e3]

/-- C6: obscuring a file (`encrypt_file`) and then revealing it
(`decrypt_file`) reproduces its original bytes exactly, for any non-empty
byte contents, given the cipher library's contract that decryption inverts
encryption. -/
theorem obscure_reveal_roundtrip (cipher : Cipher)
    (hcipher : ∀ m, cipher.dec (cipher.enc m) = m)
    (d : Disk) (p : String) (hne : d p ≠ []) (hbytes : ∀ x ∈ d p, x < 256) :
    decrypt_file cipher (encrypt_file cipher d p) p p = d p := by
  simp only [decrypt_file, encrypt_file, writeFile, eq_self_iff_true, if_true]
  rw [hcipher, b64_roundtrip _ hbytes]

/-- Witness for C6 at a reversing cipher and the three-byte test file. -/
theorem obscure_reveal_roundtrip_witness :
    testDisk "pat.pdf" ≠ [] ∧
      decrypt_file testCipher (encrypt_file testCipher testDisk "pat.pdf")
          "pat.pdf" "pat.pdf" = testDisk "pat.pdf" :=
  ⟨by decide,
    obscure_reveal_roundtrip testCipher (fun m => List.reverse_reverse m)
      testDisk "pat.pdf" (by decide) (by decide)⟩

/-! ## Claim C4: upload de-duplication -/

/-- C4: a tracked path whose basename is already present in the remote
catalog snapshot is never decrypted, never re-encrypted and never uploaded by
`upload_files`, its bytes on disk are untouched, and — whenever it is in the
tracked list — the existing remote id is recorded for it. -/
theorem upload_dedup_frame (cipher : Cipher) (existing : List RemoteFile)
    (p : String) (f : RemoteFile)
    (hf : existing.find? (fun g => g.filename == basename p) = some f) :
    ∀ (names : List String) (disk : Disk) (n : Nat),
      (upload_files cipher existing names disk n).disk p = disk p ∧
      FileOp.decrypted p ∉ (upload_files cipher existing names disk n).ops ∧
      FileOp.encrypted p ∉ (upload_files cipher existing names disk n).ops ∧
      (∀ i, FileOp.uploaded p i ∉ (upload_files cipher existing names disk n).ops) ∧
      (p ∈ names →
        FileOp.recordExisting p f.id ∈ (upload_files cipher existing names disk n).ops) := by
  intro names
  induction names with
  | nil =>
    intro disk n
    exact ⟨rfl, by simp [upload_files], by simp [upload_files],
      fun i => by simp [upload_files], fun hp => absurd hp (by simp)⟩
  | cons q rest ih =>
    intro disk n
    by_cases hq : q = p
    · subst hq
      simp only [upload_files, hf]
      obtain ⟨ihd, ihde, ihen, ihup, ihrec⟩ := ih disk n
      refine ⟨ihd, ?_, ?_, ?_, ?_⟩
      · simp only [List.mem_cons]
        rintro (hc | hc)
        · cases hc
        · exact ihde hc
      · simp only [List.mem_cons]
        rintro (hc | hc)
        · cases hc
        · exact ihen hc
      · intro i
        simp only [List.mem_cons]
        rintro (hc | hc)
        · cases hc
        · exact ihup i hc
      · intro _
        exact List.mem_cons_self _ _
    · have hpq : p ≠ q := fun hc => hq hc.symm
      cases hfq : existing.find? (fun g => g.filename == basename q) with
      | some fq =>
        simp only [upload_files, hfq]
        obtain ⟨ihd, ihde, ihen, ihup, ihrec⟩ := ih disk n
        refine ⟨ihd, ?_, ?_, ?_, ?_⟩
        · simp only [List.mem_cons]
          rintro (hc | hc)
          · cases hc
          · exact ihde hc
        · simp only [List.mem_cons]
          rintro (hc | hc)
          · cases hc
          · exact ihen hc
        · intro i
          simp only [List.mem_cons]
          rintro (hc | hc)
          · cases hc
          · exact ihup i hc
        · intro hp
          rcases List.mem_cons.mp hp with hp | hp
          · exact absurd hp hpq
          · exact List.mem_cons_of_mem _ (ihrec hp)
      | none =>
        simp only [upload_files, hfq]
        have hdisk2 :
            (encrypt_file cipher (decrypt_file cipher disk q) q) p = disk p := by
          simp [encrypt_file, decrypt_file, writeFile, hpq]
        obtain ⟨ihd, ihde, ihen, ihup, ihrec⟩ :=
          ih (encrypt_file cipher (decrypt_file cipher disk q) q) (n + 1)
        refine ⟨by rw [ihd, hdisk2], ?_, ?_, ?_, ?_⟩
        · simp only [List.mem_cons]
          rintro (hc | hc | hc | hc)
          · exact hpq (FileOp.decrypted.inj hc)
          · cases hc
          · cases hc
          · exact ihde hc
        · simp only [List.mem_cons]
          rintro (hc | hc | hc | hc)
          · cases hc
          · cases hc
          · exact hpq (FileOp.encrypted.inj hc)
          · exact ihen hc
        · intro i
          simp only [List.mem_cons]
          rintro (hc | hc | hc | hc)
          · cases hc
          · exact hpq (FileOp.uploaded.inj hc).1
          · cases hc
          · exact ihup i hc
        · intro hp
          rcases List.mem_cons.mp hp with hp | hp
          · exact absurd hp hpq
          · exact List.mem_cons_of_mem _ (List.mem_cons_of_mem _
              (List.mem_cons_of_mem _ (ihrec hp)))

/-- Witness for C4: one remote file `a.txt` already in the catalog, the
tracked list `["docs/a.txt"]` matching it by basename. -/
theorem upload_dedup_frame_witness :
    ([⟨"a.txt", "file_9"⟩] : List RemoteFile).find?
        (fun g => g.filename == basename "docs/a.txt") = some ⟨"a.txt", "file_9"⟩ ∧
    (upload_files testCipher [⟨"a.txt", "file_9"⟩] ["docs/a.txt"] testDisk 0).disk
        "docs/a.txt" = testDisk "docs/a.txt" ∧
    FileOp.decrypted "docs/a.txt"
        ∉ (upload_files testCipher [⟨"a.txt", "file_9"⟩] ["docs/a.txt"] testDisk 0).ops ∧
    FileOp.recordExisting "docs/a.txt" "file_9"
        ∈ (upload_files testCipher [⟨"a.txt", "file_9"⟩] ["docs/a.txt"] testDisk 0).ops := by
  have h := upload_dedup_frame testCipher [⟨"a.txt", "file_9"⟩] "docs/a.txt"
    ⟨"a.txt", "file_9"⟩ (by decide) ["docs/a.txt"] testDisk 0
  exact ⟨by decide, h.1, h.2.1, h.2.2.2.2 (by decide)⟩

/-! ## Claim C2: stability and distinctness of the thread mapping -/

/-- A row matching the lookup predicate stores exactly the looked-up chat id. -/
theorem sqlEq_some_eq {a : Option Nat} {c : Nat} (h : sqlEq a (some c) = true) :
    a = some c := by
  cases a with
  | none => simp [sqlEq] at h
  | some x =>
    simp only [sqlEq, beq_iff_eq] at h
    rw [h]

/-- C2 counterexample: with session chat id `2` and an empty table, two calls
`check_if_thread_exist(1)` (the same fixed chat id `1` both times) return
thread id `0` and then thread id `1` — the repeated lookup does not return
the thread id the first call produced, because the miss inserted the row
under the session's chat id `2`. -/
theorem thread_lookup_param_mismatch_cex :
    (check_if_thread_exist ⟨[], 0⟩ (some 2) (some 1)).1 = 0 ∧
    (check_if_thread_exist
        (check_if_thread_exist ⟨[], 0⟩ (some 2) (some 1)).2 (some 2) (some 1)).1 = 1 ∧
    (0 : Nat) ≠ 1 := by decide

/-- C2 amended, part 1: when the lookup parameter is the session's own chat
id (as at the only call site), a repeated call returns the same thread id and
leaves the state unchanged. -/
theorem check_same_chat_stable (db : DB) (c : Nat) :
    check_if_thread_exist (check_if_thread_exist db (some c) (some c)).2
        (some c) (some c)
      = check_if_thread_exist db (some c) (some c) := by
  cases hf : db.table.find? (fun r => sqlEq r.1 (some c)) with
  | some r => simp [check_if_thread_exist, hf]
  | none =>
    simp only [check_if_thread_exist, hf]
    rw [List.find?_append, hf]
    simp [sqlEq]

/-- C2 amended, part 2: from a well-formed table, calls for two distinct
non-null chat ids (each passed as its session's chat id) never return the
same thread id. -/
theorem check_distinct_chats (db : DB) (c1 c2 : Nat) (hinv : DBInv db)
    (hne : c1 ≠ c2) :
    (check_if_thread_exist (check_if_thread_exist db (some c1) (some c1)).2
        (some c2) (some c2)).1
      ≠ (check_if_thread_exist db (some c1) (some c1)).1 := by
  cases h1 : db.table.find? (fun r => sqlEq r.1 (some c1)) with
  | some r1 =>
    have hr1mem := List.mem_of_find?_eq_some h1
    have hp1 := List.find?_some h1
    simp only at hp1
    have hr1 : r1.1 = some c1 := sqlEq_some_eq hp1
    simp only [check_if_thread_exist, h1]
    cases h2 : db.table.find? (fun r => sqlEq r.1 (some c2)) with
    | some r2 =>
      have hr2mem := List.mem_of_find?_eq_some h2
      have hp2 := List.find?_some h2
      simp only at hp2
      have hr2 : r2.1 = some c2 := sqlEq_some_eq hp2
      simp only [h2]
      intro heq
      have : r2 = r1 := List.inj_on_of_nodup_map hinv.1 hr2mem hr1mem heq
      rw [this, hr1] at hr2
      exact hne (Option.some.inj hr2)
    | none =>
      have := hinv.2 r1 hr1mem
      simp only [h2]
      omega
  | none =>
    simp only [check_if_thread_exist, h1]
    rw [List.find?_append]
    cases h2 : db.table.find? (fun r => sqlEq r.1 (some c2)) with
    | some r2 =>
      have hlt := hinv.2 r2 (List.mem_of_find?_eq_some h2)
      show r2.2 ≠ db.nextThread
      omega
    | none =>
      have hfalse : sqlEq (some c1) (some c2) = false := by
        simp only [sqlEq, beq_eq_false_iff_ne, ne_eq]
        exact hne
      simp [hfalse]

/-- C2 amended: provided each call passes the session's current (non-null)
chat id as the lookup parameter — as the sole call site does — repeated calls
for a fixed chat id return the thread id of the first call with no state
change, and, from a well-formed table, calls for two distinct chat ids never
return the same thread id. -/
theorem thread_mapping_amended (db : DB) (c1 c2 : Nat) :
    (check_if_thread_exist (check_if_thread_exist db (some c1) (some c1)).2
        (some c1) (some c1)
      = check_if_thread_exist db (some c1) (some c1)) ∧
    (DBInv db → c1 ≠ c2 →
      (check_if_thread_exist (check_if_thread_exist db (some c1) (some c1)).2
          (some c2) (some c2)).1
        ≠ (check_if_thread_exist db (some c1) (some c1)).1) :=
  ⟨check_same_chat_stable db c1, fun hinv hne => check_distinct_chats db c1 c2 hinv hne⟩

/-- Witness for C2 amended: empty table, chat ids `1` and `2`. -/
theorem thread_mapping_amended_witness :
    (check_if_thread_exist (check_if_thread_exist ⟨[], 0⟩ (some 1) (some 1)).2
        (some 1) (some 1)
      = check_if_thread_exist ⟨[], 0⟩ (some 1) (some 1)) ∧
    (check_if_thread_exist (check_if_thread_exist ⟨[], 0⟩ (some 1) (some 1)).2
        (some 2) (some 2)).1
      ≠ (check_if_thread_exist ⟨[], 0⟩ (some 1) (some 1)).1 :=
  ⟨(thread_mapping_amended ⟨[], 0⟩ 1 2).1,
    (thread_mapping_amended ⟨[], 0⟩ 1 2).2 ⟨by decide, by decide⟩ (by decide)⟩

/-! ## Claim C9: the sentinel rewrite -/

/-- C9: with at least two tracked remote file ids, calling `generate_response`
with the compare sentinel and a percentage appends to the thread the fixed
comparison prompt — not the sentinel — built from the first and second tracked
ids, and that prompt embeds both ids and the literal percentage value. -/
theorem compare_sentinel_rewrite (g : GenState) (chat_id : Option Nat)
    (f0 f1 : String) (rest : List String) (p : Int) (reply : String) :
    (stateOf (generate_response g chat_id (f0 :: f1 :: rest) sentinel
        (some p) reply)).msgs
      = g.msgs ++ [((check_if_thread_exist g.db chat_id chat_id).1,
          comparePrompt f0 f1 p)] ∧
    comparePrompt f0 f1 p ≠ sentinel ∧
    (∃ s1 s2 s3, comparePrompt f0 f1 p
      = f0 ++ s1 ++ f1 ++ s2 ++ toString p ++ s3) := by
  refine ⟨?_, ?_, ?_⟩
  · have hrw : rewriteBody (f0 :: f1 :: rest) sentinel (some p)
        = .ok (comparePrompt f0 f1 p) := by
      simp [rewriteBody]
    simp only [generate_response, hrw]
    cases hres : get_context_similarity_percentage reply with
    | some mr => cases mr with | mk m cp => simp [stateOf, hres]
    | none => simp [stateOf, hres]
  · intro heq
    have hl := congrArg String.length heq
    simp only [comparePrompt, String.length_append] at hl
    have hbig : 50 ≤ ("The comparison utilized a TF-IDF (Term Frequency-Inverse Document Frequency) approach, followed by the calculation " : String).length := by
      decide
    have hs : sentinel.length = 49 := by decide
    omega
  · refine ⟨" is the patent provided, and ",
      " is the patent " ++ "it was compared to. " ++
      "The comparison utilized a TF-IDF (Term Frequency-Inverse Document Frequency) approach, followed by the calculation " ++
      "of Cosine similarity between the TF-IDF vectors of the two patents. The resulting cosine similarity indicates a ",
      "% textual similarity between the patents.\n\n" ++
      "Your response should be clear, concise, and follow this format without using asterisks or hashtags for special " ++
      "formatting:\n\n" ++
      "1. Pat\x27s Thoughts on Text Similarity: Provide insights into why the patents exhibit a " ++
      toString p ++ "% similarity in " ++
      "text. " ++
      "Focus on structural similarities, common technical terms, or linguistic patterns.\n\n" ++
      "2. Pat\x27s Thoughts on Context Similarity: Objectively analyze the extent of similarity in context between the patents. " ++
      "The context similarity percentage reflects the degree of overlap in ideas, concepts, or technical approaches.\n\n" ++
      "3. Context Similarity Percentage: (Please provide a context similarity percentage from 0% to 100%)\n\n" ++
      "Note: The context similarity percentage should accurately reflect the observed similarities in context. " ++
      "A percentage closer to 0% indicates minimal context similarities, while a higher percentage implies significant overlap. " ++
      "You\x27re not required to explain the percentage separately; it should reflect your analysis directly.", ?_⟩
    simp only [comparePrompt, String.append_assoc]

/-- Witness for C9 at two tracked ids `"fA"`, `"fB"` and percentage `83`. -/
theorem compare_sentinel_rewrite_witness :
    (stateOf (generate_response ⟨⟨[], 0⟩, []⟩ (some 3) ["fA", "fB"] sentinel
        (some 83) "r")).msgs
      = [] ++ [((check_if_thread_exist (DB.mk [] 0) (some 3) (some 3)).1,
          comparePrompt "fA" "fB" 83)] ∧
    comparePrompt "fA" "fB" 83 ≠ sentinel :=
  ⟨(compare_sentinel_rewrite ⟨⟨[], 0⟩, []⟩ (some 3) "fA" "fB" [] 83 "r").1,
    (compare_sentinel_rewrite ⟨⟨[], 0⟩, []⟩ (some 3) "fA" "fB" [] 83 "r").2.1⟩

/-! ## Claim C10: the sentinel with fewer than two tracked files -/

/-- C10: calling `generate_response` with the compare sentinel, a percentage,
and fewer than two tracked remote file ids raises `IndexError` from the
`patent_files[0]`/`patent_files[1]` indexing, before any message is appended
to the thread (the error state carries the unchanged message log). -/
theorem compare_sentinel_index_error (g : GenState) (chat_id : Option Nat)
    (pf : List String) (p : Int) (reply : String) (h : pf.length < 2) :
    generate_response g chat_id pf sentinel (some p) reply =
      .error (.indexError, ⟨(check_if_thread_exist g.db chat_id chat_id).2, g.msgs⟩) := by
  have hb : rewriteBody pf sentinel (some p) = .error .indexError := by
    match pf, h with
    | [], _ => simp [rewriteBody]
    | [f], _ => simp [rewriteBody]
  simp [generate_response, hb]

/-- Witness for C10: one tracked file id only. -/
theorem compare_sentinel_index_error_witness :
    (["onlyfile"] : List String).length < 2 ∧
      generate_response ⟨⟨[], 0⟩, []⟩ (some 4) ["onlyfile"] sentinel (some 83) "r" =
        .error (.indexError, ⟨(check_if_thread_exist (DB.mk [] 0) (some 4) (some 4)).2, []⟩) :=
  ⟨by decide,
    compare_sentinel_index_error ⟨⟨[], 0⟩, []⟩ (some 4) ["onlyfile"] 83 "r" (by decide)⟩

end PAT
